import Mathlib

/-!
Shallow embedding of `pyetrade/market.py` (the `ETradeMarket` class):
URL/request builders (`look_up_product`, `get_quote`, `get_option_chains`,
`get_option_expire_date`) and the option-chain aggregator
(`get_all_option_chains`).

Modelling conventions:
* Python strings become `String`, optional parameters become `Option`,
  Python `dict` results of the aggregator become insertion-ordered
  association lists (`List (PyDate × _)`), matching Python dict semantics.
* Code that can raise at runtime returns `Except PyError _`
  (`assert` failures, attribute errors such as calling `.upper()` on an int).
* The OAuth transport and the XML/JSON deserializers are external
  collaborators; the aggregator is parameterised by an oracle
  (`MarketOracle`) giving, per request, the already-parsed response or an
  error, and the requests it issues are recorded in a trace.
-/

set_option autoImplicit false

namespace PyEtrade

/-- Runtime errors of the Python code that the embedding makes explicit:
`assertionError` for a failed `assert`, `attributeError` for an attribute
access on an object lacking it (e.g. `int.upper`). -/
inductive PyError where
  | assertionError
  | attributeError
  deriving DecidableEq

/-- A calendar date as produced by `datetime.date` (fields `year`, `month`,
`day`); only the fields the module reads are modelled. -/
structure PyDate where
  year : Nat
  month : Nat
  day : Nat
  deriving DecidableEq

/-- Python `str(True) = "True"`, `str(False) = "False"`. -/
def pyStr (b : Bool) : String :=
  if b then "True" else "False"

/-- Python `str.lower()` as a per-character map (the module only lowercases
ASCII parameter values such as `"XML"`). -/
def strLower (s : String) : String :=
  ⟨s.data.map Char.toLower⟩

/-- Python `str.upper()` as a per-character map (the module only uppercases
ASCII parameter values such as `"week_52"` or `"callput"`). -/
def strUpper (s : String) : String :=
  ⟨s.data.map Char.toUpper⟩

/-- Python `"%02d" % n` for `n ≥ 0`: zero-pad to width 2. -/
def pad2 (n : Nat) : String :=
  if n < 10 then "0" ++ toString n else toString n

/-- Python `"%04d" % n` for `n ≥ 0`: zero-pad to width 4. -/
def pad4 (n : Nat) : String :=
  if n < 10 then "000" ++ toString n
  else if n < 100 then "00" ++ toString n
  else if n < 1000 then "0" ++ toString n
  else toString n

/-- `n / d` rounded to the nearest natural number, ties to the even one;
this is the rounding C/Python `printf`-style `%f` formatting performs on
the (exact rational value of the) double being printed. -/
def divRoundHalfEven (n d : Nat) : Nat :=
  let q := n / d
  let r := n % d
  if 2 * r < d then q
  else if d < 2 * r then q + 1
  else if q % 2 = 0 then q else q + 1

/-- Render a number of hundredths as a fixed-point string with exactly two
digits after the decimal point. -/
def centsRender (m : Nat) : String :=
  toString (m / 100) ++ "." ++ pad2 (m % 100)

/-- Python `"%0.2f" % x`, on the exact rational value `x` of the float:
`|x| * 100 = (100 * x.num.natAbs) / x.den` rounded half-to-even, rendered
with exactly two digits after the point, with a leading sign when the
value is negative. -/
def formatF2 (x : ℚ) : String :=
  (if x.num < 0 then "-" else "") ++
    centsRender (divRoundHalfEven (100 * x.num.natAbs) x.den)

/-- Python `int.upper()`: an `int` has no attribute `upper`, so this always
raises `AttributeError` (used verbatim by the `noOfStrikes` branch of
`get_option_chains`, line 306 of `market.py`). -/
def intUpper (_n : Int) : Except PyError String :=
  .error .attributeError

/-- `if x is not None: args.append(f x)` — the per-parameter append step
shared by the query-argument builders. -/
def optArg {β : Type} (o : Option β) (f : β → String) (args : List String) : List String :=
  match o with
  | none => args
  | some v => args ++ [f v]

/-- `__init__`: the base URL computed from the `dev` flag
(`market.py` lines 75-76). -/
def baseUrlOf (dev : Bool) : String :=
  "https://" ++ (if dev then "apisb" else "api") ++ ".etrade.com/v1/market/"

/-- `look_up_product`, URL-building part (`market.py` lines 103-106):
`"%slookup/%s" % (base_url, s if resp_format.lower() == "xml" else s + ".json")`. -/
def look_up_product_url (base search_str resp_format : String) : String :=
  base ++ "lookup/" ++
    (if strLower resp_format = "xml" then search_str else search_str ++ ".json")

/-- Which deserializer a response goes through. -/
inductive ParseMode where
  | xml
  | json
  deriving DecidableEq

/-- `look_up_product`, response-parsing choice (`market.py` line 111):
`xmltodict.parse` when `resp_format.lower() == "xml"`, else `req.json()`. -/
def look_up_product_parse_mode (resp_format : String) : ParseMode :=
  if strLower resp_format = "xml" then .xml else .json

/-- `get_option_expire_date`, URL-building part (`market.py` lines 342-344):
`base_url + "optionexpiredate?symbol=%s&expiryType=ALL" % underlier`.
The method takes no response-format parameter. -/
def get_option_expire_date_url (base underlier : String) : String :=
  base ++ "optionexpiredate?symbol=" ++ underlier ++ "&expiryType=ALL"

/-- `get_option_expire_date`, response-parsing choice (`market.py` line 352):
unconditionally `xmltodict.parse`; the method signature offers no way to
select JSON. -/
def get_option_expire_date_parse_mode : ParseMode :=
  ParseMode.xml

/-- The legal `detail_flag` values of `get_quote`
(`market.py` lines 166-174, the non-`None` members of the `assert` tuple). -/
def legalDetailFlags : List String :=
  ["fundamental", "intraday", "options", "week_52", "all", "mf_detail"]

/-- The `assert detail_flag in (...)` test of `get_quote` as a boolean. -/
def detailFlagLegal : Option String → Bool
  | none => true
  | some f => decide (f ∈ legalDetailFlags)

/-- `get_quote`, query-argument list (`market.py` lines 183-189): `detailflag`
uppercased when present, `requireEarningsDate=true` only when the flag is
truthy (`if require_earnings_date:`), `skipMiniOptionsCheck` via `str()`. -/
def quoteArgs (detail_flag : Option String)
    (require_earnings_date skip_mini_options_check : Option Bool) : List String :=
  let args := optArg detail_flag (fun f => "detailflag=" ++ strUpper f) []
  let args := if require_earnings_date = some true
    then args ++ ["requireEarningsDate=true"] else args
  optArg skip_mini_options_check (fun b => "skipMiniOptionsCheck=" ++ pyStr b) args

/-- `get_quote` (`market.py` lines 166-196), up to the network call: validates
`detail_flag` (`assert`), counts the over-25-symbols warning
(`LOGGER.warning`, emitted once when `len(symbols) > 25`), and builds
`quote/{first 25 symbols comma-joined}[.json][?args]`. Returns the pair
(number of warnings emitted, built URL). -/
def get_quote (base : String) (symbols : List String) (detail_flag : Option String)
    (require_earnings_date skip_mini_options_check : Option Bool)
    (resp_format : String) : Except PyError (Nat × String) :=
  if detailFlagLegal detail_flag then
    let warnings : Nat := if 25 < symbols.length then 1 else 0
    let args := quoteArgs detail_flag require_earnings_date skip_mini_options_check
    let url := base ++ "quote/" ++ String.intercalate "," (symbols.take 25)
    let url := if strLower resp_format = "json" then url ++ ".json" else url
    let url := if args.length ≠ 0 then url ++ "?" ++ String.intercalate "&" args else url
    .ok (warnings, url)
  else
    .error .assertionError

/-- The legal `chainType` values of `get_option_chains`. -/
def legalChainTypes : List String :=
  ["put", "call", "callput"]

/-- The legal `optionCategory` values of `get_option_chains`. -/
def legalOptionCategories : List String :=
  ["standard", "all", "mini"]

/-- The legal `priceType` values of `get_option_chains`. -/
def legalPriceTypes : List String :=
  ["atmn", "all"]

/-- `o` is `None` or a member of `legal` (one `assert X in (...)` line). -/
def optLegal (o : Option String) (legal : List String) : Bool :=
  match o with
  | none => true
  | some v => decide (v ∈ legal)

/-- `get_option_chains`, query-argument list (`market.py` lines 289-306):
`symbol`, then (each only when not `None`) the expiry-date triple,
`strikePriceNear` via `%0.2f`, `chainType`/`optionCategory`/`priceType`
uppercased, `skipAdjusted` via `str()`, and finally the `noOfStrikes`
branch, which evaluates `noOfStrikes.upper()` — an `AttributeError` on an
int — before anything is appended. -/
def optionChainArgs (underlier : String) (expiry_date : Option PyDate)
    (skipAdjusted : Option Bool) (chainType : Option String)
    (strikePriceNear : Option ℚ) (noOfStrikes : Option Int)
    (optionCategory priceType : Option String) : Except PyError (List String) :=
  let args := ["symbol=" ++ underlier]
  let args := optArg expiry_date
    (fun d => "expiryDay=" ++ pad2 d.day ++ "&expiryMonth=" ++ pad2 d.month
      ++ "&expiryYear=" ++ pad4 d.year) args
  let args := optArg strikePriceNear (fun p => "strikePriceNear=" ++ formatF2 p) args
  let args := optArg chainType (fun c => "chainType=" ++ strUpper c) args
  let args := optArg optionCategory (fun c => "optionCategory=" ++ strUpper c) args
  let args := optArg priceType (fun c => "priceType=" ++ strUpper c) args
  let args := optArg skipAdjusted (fun b => "skipAdjusted=" ++ pyStr b) args
  match noOfStrikes with
  | none => .ok args
  | some n => (intUpper n).map (fun s => args ++ ["noOfStrikes=" ++ s])

/-- `get_option_chains` (`market.py` lines 284-307), up to the network call:
the four `assert`s, then the argument list, then
`base_url + "optionchains?" + "&".join(args)`. -/
def get_option_chains_url (base underlier : String) (expiry_date : Option PyDate)
    (skipAdjusted : Option Bool) (chainType : Option String)
    (strikePriceNear : Option ℚ) (noOfStrikes : Option Int)
    (optionCategory priceType : Option String) : Except PyError String :=
  if optLegal chainType legalChainTypes ∧
      optLegal optionCategory legalOptionCategories ∧
      optLegal priceType legalPriceTypes then
    (optionChainArgs underlier expiry_date skipAdjusted chainType strikePriceNear
        noOfStrikes optionCategory priceType).map
      (fun args => base ++ "optionchains?" ++ String.intercalate "&" args)
  else
    .error .assertionError

/-- One `OptionPair` of the chains response: the `'Put'` and `'Call'` entries
(each an opaque vendor record, the type parameter `α`). -/
structure OptionPair (α : Type) where
  Put : α
  Call : α
  deriving DecidableEq

/-- `[i['Put'] for i in chains] + [i['Call'] for i in chains]`
(`market.py` line 223): all Put entries in order, then all Call entries. -/
def pairsToEntries {α : Type} (chains : List (OptionPair α)) : List α :=
  chains.map OptionPair.Put ++ chains.map OptionPair.Call

/-- A downstream request issued by the aggregator: one to the
expiration-date endpoint or one to the chains endpoint for a given date. -/
inductive Request where
  | expireDateReq : String → Request
  | chainReq : String → PyDate → Request
  deriving DecidableEq

/-- External collaborator for the aggregator: per request, the
already-parsed response (list of expiration dates, resp. list of
`OptionPair`s) or the exception (`ε`) the fetch/parse raised. -/
structure MarketOracle (α ε : Type) where
  expireDates : String → Except ε (List PyDate)
  chains : String → PyDate → Except ε (List (OptionPair α))

/-- Python `dict` assignment `rtn[k] = v` on an insertion-ordered
association list: update in place when the key exists, append otherwise. -/
def dictInsert {β : Type} (k : PyDate) (v : β) : List (PyDate × β) → List (PyDate × β)
  | [] => [(k, v)]
  | (k₂, v₂) :: rest =>
    if k₂ = k then (k, v) :: rest else (k₂, v₂) :: dictInsert k v rest

/-- The `for this_expiry_date in expiration_dates:` loop of
`get_all_option_chains` (`market.py` lines 220-223), recording the chain
requests it issues; an error from a per-date fetch stops the loop and is
returned (there is no `try` around the loop body). -/
def chainLoop {α ε : Type} (env : MarketOracle α ε) (underlier : String) :
    List PyDate → List (PyDate × List α) → List Request × Except ε (List (PyDate × List α))
  | [], acc => ([], .ok acc)
  | d :: rest, acc =>
    match env.chains underlier d with
    | .error e => ([.chainReq underlier d], .error e)
    | .ok pairs =>
      let r := chainLoop env underlier rest (dictInsert d (pairsToEntries pairs) acc)
      (.chainReq underlier d :: r.1, r.2)

/-- `get_all_option_chains` (`market.py` lines 204-224): fetch the
expiration dates (`try: ... except Exception: raise` — a bare re-raise),
then one chain fetch per date in order, building the dict; returns the
trace of requests issued together with the result or the propagated
exception. -/
def get_all_option_chains {α ε : Type} (env : MarketOracle α ε) (underlier : String) :
    List Request × Except ε (List (PyDate × List α)) :=
  match env.expireDates underlier with
  | .error e => ([.expireDateReq underlier], .error e)
  | .ok dates =>
    let r := chainLoop env underlier dates []
    (.expireDateReq underlier :: r.1, r.2)

/-- The pairs a successful chain fetch returns (arbitrary when the fetch
fails; used only under a success hypothesis). -/
def okChains {α ε : Type} (env : MarketOracle α ε) (underlier : String) (d : PyDate) :
    List (OptionPair α) :=
  match env.chains underlier d with
  | .ok pairs => pairs
  | .error _ => []

/-- The client object: the fields `__init__` sets (`market.py` lines 70-83).
`σ` is the type of the OAuth session object. -/
structure ETradeMarket (σ : Type) where
  client_key : String
  client_secret : String
  resource_owner_key : String
  resource_owner_secret : String
  dev_environment : Bool
  base_url : String
  session : σ
  deriving DecidableEq

/-- `__init__` (`market.py` lines 34-83): stores the credentials and the
environment flag, derives `base_url` from `dev`, and constructs the
session from the four credentials (`mkSession` stands for the
`OAuth1Session` constructor). -/
def mkETradeMarket {σ : Type} (client_key client_secret : String)
    (resource_owner_key resource_owner_secret : String) (dev : Bool)
    (mkSession : String → String → String → String → σ) : ETradeMarket σ :=
  { client_key := client_key
    client_secret := client_secret
    resource_owner_key := resource_owner_key
    resource_owner_secret := resource_owner_secret
    dev_environment := dev
    base_url := baseUrlOf dev
    session := mkSession client_key client_secret resource_owner_key resource_owner_secret }

/-- `look_up_product` as a state-passing operation: reads `base_url` and
`session`, issues the request through the transport, returns the raw
response with the (unchanged) client. No statement of the method writes an
attribute of `self`. -/
def look_up_product_run {σ ε : Type} (transport : σ → String → Except ε String)
    (c : ETradeMarket σ) (search_str resp_format : String) :
    ETradeMarket σ × Except ε String :=
  (c, transport c.session (look_up_product_url c.base_url search_str resp_format))

/-- `get_quote` as a state-passing operation: builds the URL (or fails the
`assert`), then issues the request; `self` is never written. -/
def get_quote_run {σ ε : Type} (transport : σ → String → Except ε String)
    (c : ETradeMarket σ) (symbols : List String) (detail_flag : Option String)
    (require_earnings_date skip_mini_options_check : Option Bool)
    (resp_format : String) :
    ETradeMarket σ × Except (PyError ⊕ ε) String :=
  (c, match get_quote c.base_url symbols detail_flag require_earnings_date
        skip_mini_options_check resp_format with
      | .error e => .error (.inl e)
      | .ok (_, url) => (transport c.session url).mapError .inr)

/-- `get_option_chains` as a state-passing operation: builds the URL (or
raises), then issues the request; `self` is never written. -/
def get_option_chains_run {σ ε : Type} (transport : σ → String → Except ε String)
    (c : ETradeMarket σ) (underlier : String) (expiry_date : Option PyDate)
    (skipAdjusted : Option Bool) (chainType : Option String)
    (strikePriceNear : Option ℚ) (noOfStrikes : Option Int)
    (optionCategory priceType : Option String) :
    ETradeMarket σ × Except (PyError ⊕ ε) String :=
  (c, match get_option_chains_url c.base_url underlier expiry_date skipAdjusted
        chainType strikePriceNear noOfStrikes optionCategory priceType with
      | .error e => .error (.inl e)
      | .ok url => (transport c.session url).mapError .inr)

/-- `get_option_expire_date` as a state-passing operation: builds the fixed
URL, issues the request, hands the body to the XML parser (`parseDates`
stands for `xmltodict.parse` plus the date-list comprehension); `self` is
never written. -/
def get_option_expire_date_run {σ ε : Type} (transport : σ → String → Except ε String)
    (parseDates : String → Except ε (List PyDate)) (c : ETradeMarket σ)
    (underlier : String) : ETradeMarket σ × Except ε (List PyDate) :=
  (c, (transport c.session (get_option_expire_date_url c.base_url underlier)).bind parseDates)

/-- `get_all_option_chains` as a state-passing operation: the oracle is a
function of the session (the only way the loop touches `self` is reading
`self.session`/`self.base_url` through its two sub-calls); `self` is never
written. -/
def get_all_option_chains_run {σ α ε : Type} (oracle : σ → MarketOracle α ε)
    (c : ETradeMarket σ) (underlier : String) :
    ETradeMarket σ × (List Request × Except ε (List (PyDate × List α))) :=
  (c, get_all_option_chains (oracle c.session) underlier)

/-! ### Helper lemmas -/

theorem dictInsert_fresh {β : Type} {k : PyDate} {v : β} :
    ∀ {acc : List (PyDate × β)}, k ∉ acc.map Prod.fst →
      dictInsert k v acc = acc ++ [(k, v)]
  | [], _ => rfl
  | (k₂, v₂) :: rest, h => by
    have hk : ¬ k₂ = k := by
      intro hkk
      exact h (by simp [hkk])
    have hrest : k ∉ rest.map Prod.fst := by
      intro hm
      exact h (by simp [hm])
    simp [dictInsert, hk, dictInsert_fresh hrest]

theorem okChains_eq {α ε : Type} {env : MarketOracle α ε} {u : String} {d : PyDate}
    {pairs : List (OptionPair α)} (h : env.chains u d = .ok pairs) :
    okChains env u d = pairs := by
  simp [okChains, h]

theorem chainLoop_ok {α ε : Type} (env : MarketOracle α ε) (u : String) :
    ∀ (dates : List PyDate) (acc : List (PyDate × List α)),
      dates.Nodup →
      (∀ d ∈ dates, ∃ pairs, env.chains u d = .ok pairs) →
      (∀ d ∈ dates, d ∉ acc.map Prod.fst) →
      chainLoop env u dates acc =
        (dates.map (Request.chainReq u),
         Except.ok (acc ++ dates.map (fun d => (d, pairsToEntries (okChains env u d)))))
  | [], acc, _, _, _ => by simp [chainLoop]
  | d :: rest, acc, hnd, hok, hfresh => by
    obtain ⟨pairs, hp⟩ := hok d (List.mem_cons_self d rest)
    have hins : dictInsert d (pairsToEntries pairs) acc = acc ++ [(d, pairsToEntries pairs)] :=
      dictInsert_fresh (hfresh d (List.mem_cons_self d rest))
    have hdrest : d ∉ rest := (List.nodup_cons.mp hnd).1
    have IH := chainLoop_ok env u rest (acc ++ [(d, pairsToEntries pairs)])
      (List.nodup_cons.mp hnd).2
      (fun d₂ h₂ => hok d₂ (List.mem_cons_of_mem _ h₂))
      (fun d₂ h₂ => by
        simp only [List.map_append, List.map_cons, List.map_nil, List.mem_append,
          List.mem_singleton]
        rintro (hin | hEq)
        · exact hfresh d₂ (List.mem_cons_of_mem _ h₂) hin
        · exact hdrest (hEq ▸ h₂))
    simp [chainLoop, hp, hins, IH, okChains_eq hp, List.append_assoc]

theorem chainLoop_error {α ε : Type} (env : MarketOracle α ε) (u : String)
    (d : PyDate) (e : ε) (post : List PyDate) (he : env.chains u d = .error e) :
    ∀ (pre : List PyDate) (acc : List (PyDate × List α)),
      (∀ d₂ ∈ pre, ∃ pairs, env.chains u d₂ = .ok pairs) →
      (chainLoop env u (pre ++ d :: post) acc).2 = .error e
  | [], acc, _ => by simp [chainLoop, he]
  | d₂ :: rest, acc, hok => by
    obtain ⟨pairs, hp⟩ := hok d₂ (List.mem_cons_self d₂ rest)
    simpa [chainLoop, hp] using
      chainLoop_error env u d e post he rest
        (dictInsert d₂ (pairsToEntries pairs) acc)
        (fun d₃ h₃ => hok d₃ (List.mem_cons_of_mem _ h₃))

theorem mem_optArg {β : Type} {x : String} (o : Option β) (f : β → String)
    {args : List String} (h : x ∈ args) : x ∈ optArg o f args := by
  cases o with
  | none => exact h
  | some v => exact List.mem_append_left _ h

/-! ### Claim theorems -/

/-- C1: when the expiration-date endpoint returns N distinct dates and every
per-date chain fetch succeeds, `get_all_option_chains` issues exactly
1 + N downstream requests — the expiration-date request followed by one
chain request per date in the returned order — and returns a mapping whose
key sequence is exactly those N dates (no duplicates, no omissions). -/
theorem get_all_option_chains_requests_and_keys {α ε : Type}
    (env : MarketOracle α ε) (u : String) (dates : List PyDate)
    (hdates : env.expireDates u = .ok dates) (hnd : dates.Nodup)
    (hok : ∀ d ∈ dates, ∃ pairs, env.chains u d = .ok pairs) :
    (get_all_option_chains env u).1 =
        Request.expireDateReq u :: dates.map (Request.chainReq u) ∧
    (get_all_option_chains env u).1.length = 1 + dates.length ∧
    ∃ m, (get_all_option_chains env u).2 = .ok m ∧ m.map Prod.fst = dates := by
  have h := chainLoop_ok env u dates [] hnd hok (by simp)
  refine ⟨?_, ?_,
    ⟨dates.map (fun d => (d, pairsToEntries (okChains env u d))), ?_, ?_⟩⟩
  · simp [get_all_option_chains, hdates, h]
  · simp [get_all_option_chains, hdates, h, Nat.add_comm]
  · simp [get_all_option_chains, hdates, h]
  · rw [List.map_map]
    exact List.map_id' dates

/-- Witness for C1: a concrete oracle with two distinct expiration dates,
each chain fetch succeeding. -/
theorem get_all_option_chains_requests_and_keys_witness :
    (get_all_option_chains
      (MarketOracle.mk (fun _ => Except.ok [⟨2025, 1, 17⟩, ⟨2025, 2, 21⟩])
        (fun _ _ => Except.ok [⟨1, 2⟩]) : MarketOracle Nat Unit) "AAPL").1 =
      [Request.expireDateReq "AAPL", Request.chainReq "AAPL" ⟨2025, 1, 17⟩,
        Request.chainReq "AAPL" ⟨2025, 2, 21⟩] ∧
    ∃ m, (get_all_option_chains
        (MarketOracle.mk (fun _ => Except.ok [⟨2025, 1, 17⟩, ⟨2025, 2, 21⟩])
          (fun _ _ => Except.ok [⟨1, 2⟩]) : MarketOracle Nat Unit) "AAPL").2 =
        .ok m ∧ m.map Prod.fst = [⟨2025, 1, 17⟩, ⟨2025, 2, 21⟩] := by
  have h := get_all_option_chains_requests_and_keys
    (MarketOracle.mk (fun _ => Except.ok [⟨2025, 1, 17⟩, ⟨2025, 2, 21⟩])
      (fun _ _ => Except.ok [⟨1, 2⟩]) : MarketOracle Nat Unit) "AAPL"
    [⟨2025, 1, 17⟩, ⟨2025, 2, 21⟩] rfl (by decide) (fun d _ => ⟨[⟨1, 2⟩], rfl⟩)
  exact ⟨by simpa using h.1, h.2.2⟩

/-- C2: for every expiration date processed by `get_all_option_chains`, the
sequence stored in the result for that date is the concatenation of all
`Put` entries of its chain response (in returned `OptionPair` order)
followed by all `Call` entries (same order). -/
theorem get_all_option_chains_puts_then_calls {α ε : Type}
    (env : MarketOracle α ε) (u : String) (dates : List PyDate) (d : PyDate)
    (pairs : List (OptionPair α))
    (hdates : env.expireDates u = .ok dates) (hnd : dates.Nodup)
    (hok : ∀ d₂ ∈ dates, ∃ p, env.chains u d₂ = .ok p)
    (hd : d ∈ dates) (hp : env.chains u d = .ok pairs) :
    ∃ m, (get_all_option_chains env u).2 = .ok m ∧ m.map Prod.fst = dates ∧
      (d, pairs.map OptionPair.Put ++ pairs.map OptionPair.Call) ∈ m := by
  have h := chainLoop_ok env u dates [] hnd hok (by simp)
  refine ⟨dates.map (fun d₂ => (d₂, pairsToEntries (okChains env u d₂))), ?_, ?_, ?_⟩
  · simp [get_all_option_chains, hdates, h]
  · rw [List.map_map]
    exact List.map_id' dates
  · have : (d, pairsToEntries (okChains env u d)) ∈
        dates.map (fun d₂ => (d₂, pairsToEntries (okChains env u d₂))) :=
      List.mem_map_of_mem _ hd
    rwa [okChains_eq hp] at this

/-- Witness for C2: a chain response with two `OptionPair`s (Put 1/Call 2,
Put 3/Call 4) yields the stored sequence `[1, 3, 2, 4]` — puts then calls,
each group in original order. -/
theorem get_all_option_chains_puts_then_calls_witness :
    ∃ m, (get_all_option_chains
        (MarketOracle.mk (fun _ => Except.ok [⟨2025, 1, 17⟩])
          (fun _ _ => Except.ok [⟨1, 2⟩, ⟨3, 4⟩]) : MarketOracle Nat Unit) "AAPL").2 =
        .ok m ∧ m.map Prod.fst = [⟨2025, 1, 17⟩] ∧
      ((⟨2025, 1, 17⟩ : PyDate), [1, 3, 2, 4]) ∈ m :=
  get_all_option_chains_puts_then_calls
    (MarketOracle.mk (fun _ => Except.ok [⟨2025, 1, 17⟩])
      (fun _ _ => Except.ok [⟨1, 2⟩, ⟨3, 4⟩]) : MarketOracle Nat Unit) "AAPL"
    [⟨2025, 1, 17⟩] ⟨2025, 1, 17⟩ [⟨1, 2⟩, ⟨3, 4⟩] rfl (by decide)
    (fun d _ => ⟨[⟨1, 2⟩, ⟨3, 4⟩], rfl⟩) (by decide) rfl

/-- C3: if the chain fetch for some date raises (every earlier date having
succeeded), `get_all_option_chains` propagates that same error and returns
no mapping, partial or otherwise. -/
theorem get_all_option_chains_error_propagation {α ε : Type}
    (env : MarketOracle α ε) (u : String) (pre post : List PyDate) (d : PyDate) (e : ε)
    (hdates : env.expireDates u = .ok (pre ++ d :: post))
    (hok : ∀ d₂ ∈ pre, ∃ p, env.chains u d₂ = .ok p)
    (he : env.chains u d = .error e) :
    (get_all_option_chains env u).2 = .error e := by
  simpa [get_all_option_chains, hdates] using
    chainLoop_error env u d e post he pre [] hok

/-- Witness for C3: three expiration dates, the chain fetch failing on the
second with error `7`; the aggregation returns exactly that error. -/
theorem get_all_option_chains_error_propagation_witness :
    (get_all_option_chains
      (MarketOracle.mk (fun _ => Except.ok [⟨2025, 1, 17⟩, ⟨2025, 2, 21⟩, ⟨2025, 3, 21⟩])
        (fun _ d => if d = ⟨2025, 2, 21⟩ then Except.error 7 else Except.ok []) :
          MarketOracle Nat Nat) "AAPL").2 = .error 7 :=
  get_all_option_chains_error_propagation
    (MarketOracle.mk (fun _ => Except.ok [⟨2025, 1, 17⟩, ⟨2025, 2, 21⟩, ⟨2025, 3, 21⟩])
      (fun _ d => if d = ⟨2025, 2, 21⟩ then Except.error 7 else Except.ok []) :
        MarketOracle Nat Nat) "AAPL"
    [⟨2025, 1, 17⟩] [⟨2025, 3, 21⟩] ⟨2025, 2, 21⟩ 7 rfl
    (fun d₂ h₂ => by
      simp at h₂
      subst h₂
      exact ⟨[], rfl⟩)
    rfl

/-- C4: the claim says a supplied `noOfStrikes` count is serialized as
`noOfStrikes=N` without a runtime error, but the source
(`market.py` line 306) evaluates `noOfStrikes.upper()` — an attribute
access that does not exist on an int — so the builder raises
`AttributeError` whenever `noOfStrikes` is supplied: with
`noOfStrikes = 5` and all other optional parameters absent, the build
fails instead of producing a URL. The claim matches the code's own
`"noOfStrikes=%d"` format string (which expects a plain int), so the code,
not the claim, is at fault. -/
theorem get_option_chains_noOfStrikes_raises :
    get_option_chains_url (baseUrlOf true) "AAPL" none none none none (some 5)
      none none = .error PyError.attributeError :=
  rfl

/-- C7 helper: `pad2` always renders two characters for inputs below 100. -/
theorem pad2_length : ∀ m : Nat, m < 100 → (pad2 m).length = 2 := by
  decide

/-- C7: a supplied `strike_price_near` is serialized as
`strikePriceNear=` followed by the `%0.2f` rendering of the value, which
always has exactly two digits after the decimal point; the argument-list
build succeeds and contains that argument, whatever the other optional
parameters are (with `noOfStrikes` absent, since supplying it aborts the
build — see C4). -/
theorem strike_price_two_decimal (u : String) (ed : Option PyDate) (sa : Option Bool)
    (ct : Option String) (q : ℚ) (ocat pt : Option String) :
    ∃ args : List String,
      optionChainArgs u ed sa ct (some q) none ocat pt = .ok args ∧
      ("strikePriceNear=" ++ formatF2 q) ∈ args ∧
      ∃ ip fr : String, formatF2 q = ip ++ "." ++ fr ∧ fr.length = 2 := by
  refine ⟨_, rfl, ?_, ?_⟩
  · exact mem_optArg sa _ (mem_optArg pt _ (mem_optArg ocat _ (mem_optArg ct _
      (List.mem_append_right _ (List.mem_singleton.mpr rfl)))))
  · refine ⟨(if q.num < 0 then "-" else "") ++
      toString (divRoundHalfEven (100 * q.num.natAbs) q.den / 100),
      pad2 (divRoundHalfEven (100 * q.num.natAbs) q.den % 100), ?_, ?_⟩
    · simp [formatF2, centsRender, String.append_assoc]
    · exact pad2_length _ (Nat.mod_lt _ (by norm_num))

/-- Witness for C7 at the spec's own example: `123.4` renders as
`strikePriceNear=123.40`. -/
theorem strike_price_two_decimal_witness :
    (∃ args : List String,
      optionChainArgs "AAPL" none none none (some (mkRat 1234 10)) none none none =
        .ok args ∧
      ("strikePriceNear=" ++ formatF2 (mkRat 1234 10)) ∈ args ∧
      ∃ ip fr : String, formatF2 (mkRat 1234 10) = ip ++ "." ++ fr ∧ fr.length = 2) ∧
    formatF2 (mkRat 1234 10) = "123.40" :=
  ⟨strike_price_two_decimal "AAPL" none none none (mkRat 1234 10) none none,
    by decide⟩

/-- C9: the lookup builder is case-insensitive in `resp_format`
(it compares the lowercased value): any casing of `xml` yields
`{base}lookup/{search_str}` with no suffix, any casing of `json` yields
the same URL with the suffix `.json`. -/
theorem look_up_product_url_suffix (base s rf : String) :
    (strLower rf = "xml" → look_up_product_url base s rf = base ++ "lookup/" ++ s) ∧
    (strLower rf = "json" →
      look_up_product_url base s rf = base ++ "lookup/" ++ s ++ ".json") := by
  constructor
  · intro h
    simp [look_up_product_url, h]
  · intro h
    simp [look_up_product_url, h, String.append_assoc]

/-- Witness for C9 at mixed casings: `"XML"` gives no suffix, `"Json"`
gives the `.json` suffix. -/
theorem look_up_product_url_suffix_witness :
    look_up_product_url "b/" "aapl" "XML" = "b/" ++ "lookup/" ++ "aapl" ∧
    look_up_product_url "b/" "aapl" "Json" = "b/" ++ "lookup/" ++ "aapl" ++ ".json" :=
  ⟨(look_up_product_url_suffix "b/" "aapl" "XML").1 (by decide),
    (look_up_product_url_suffix "b/" "aapl" "Json").2 (by decide)⟩

/-- C8: the expiration-date operation builds exactly
`optionexpiredate?symbol={underlier}&expiryType=ALL` relative to the base
URL, and its response always goes through the XML parser — the operation
has no response-format parameter, so no JSON variant can be selected. -/
theorem get_option_expire_date_url_and_format (base u : String) :
    get_option_expire_date_url base u =
        base ++ "optionexpiredate?symbol=" ++ u ++ "&expiryType=ALL" ∧
    get_option_expire_date_parse_mode = ParseMode.xml :=
  ⟨rfl, rfl⟩

/-- Witness for C8 at the production base URL and the symbol `GOOG`. -/
theorem get_option_expire_date_url_and_format_witness :
    get_option_expire_date_url (baseUrlOf false) "GOOG" =
        baseUrlOf false ++ "optionexpiredate?symbol=" ++ "GOOG" ++ "&expiryType=ALL" ∧
    get_option_expire_date_parse_mode = ParseMode.xml :=
  get_option_expire_date_url_and_format (baseUrlOf false) "GOOG"

/-- C5: the quote builder uses exactly the first 25 symbols in their
original order, comma-joined, and emits exactly one warning when more than
25 are supplied and none otherwise; for at most 25 symbols the truncation
is the identity, so all symbols appear in order. -/
theorem get_quote_symbol_truncation (base : String) (symbols : List String)
    (rf : String) :
    get_quote base symbols none none none rf =
      .ok ((if 25 < symbols.length then 1 else 0),
        base ++ "quote/" ++ String.intercalate "," (symbols.take 25) ++
          (if strLower rf = "json" then ".json" else "")) ∧
    (symbols.length ≤ 25 → symbols.take 25 = symbols) := by
  constructor
  · by_cases h : strLower rf = "json" <;>
      simp [get_quote, detailFlagLegal, quoteArgs, optArg, h, String.append_empty]
  · exact fun h => List.take_of_length_le h

/-- Witness for C5: 30 symbols produce one warning and the first 25 of
them in the URL; 2 symbols are used in full. -/
theorem get_quote_symbol_truncation_witness :
    get_quote "b/" (List.replicate 30 "A") none none none "xml" =
      .ok (1, "b/" ++ "quote/" ++
        String.intercalate "," ((List.replicate 30 "A").take 25) ++ "") ∧
    (List.replicate 2 "A").take 25 = List.replicate 2 "A" := by
  constructor
  · exact (get_quote_symbol_truncation "b/" (List.replicate 30 "A") "xml").1
  · exact (get_quote_symbol_truncation "b/" (List.replicate 2 "A") "xml").2 (by decide)

/-- C6 helper: with a `detail_flag` present, the query-argument list of
`get_quote` is never empty. -/
theorem quoteArgs_some_length_ne_zero (f : String) (red sk : Option Bool) :
    (quoteArgs (some f) red sk).length ≠ 0 := by
  rcases sk with _ | b <;> by_cases hred : red = some true <;>
    simp [quoteArgs, optArg, hred]

/-- C6: for every `detail_flag` in the legal set, the quote builder
succeeds and its query string contains `detailflag=` followed by the
uppercased flag; for every other flag, the parameter validation fails
(modelling the `assert`) and no URL is built. -/
theorem get_quote_detail_flag (base : String) (symbols : List String) (f : String)
    (red sk : Option Bool) (rf : String) :
    (f ∈ legalDetailFlags →
      ("detailflag=" ++ strUpper f) ∈ quoteArgs (some f) red sk ∧
      get_quote base symbols (some f) red sk rf =
        .ok ((if 25 < symbols.length then 1 else 0),
          base ++ "quote/" ++ String.intercalate "," (symbols.take 25) ++
            (if strLower rf = "json" then ".json" else "") ++ "?" ++
            String.intercalate "&" (quoteArgs (some f) red sk))) ∧
    (f ∉ legalDetailFlags →
      get_quote base symbols (some f) red sk rf = .error PyError.assertionError) := by
  constructor
  · intro hf
    constructor
    · rcases sk with _ | b <;> by_cases hred : red = some true <;>
        simp [quoteArgs, optArg, hred]
    · have hlegal : detailFlagLegal (some f) = true := by
        simp [detailFlagLegal, hf]
      have hne := quoteArgs_some_length_ne_zero f red sk
      by_cases h : strLower rf = "json" <;>
        simp [get_quote, hlegal, h, hne, String.append_empty]
  · intro hf
    have hlegal : detailFlagLegal (some f) = false := by
      simp [detailFlagLegal, hf]
    simp [get_quote, hlegal]

/-- Witness for C6 at the legal flag `week_52` (serialized `WEEK_52`) and
the illegal flag `bogus` (assertion failure, no URL built). -/
theorem get_quote_detail_flag_witness :
    (("detailflag=" ++ strUpper "week_52") ∈ quoteArgs (some "week_52") none none ∧
      get_quote "b/" ["GOOG"] (some "week_52") none none "xml" =
        .ok ((if 25 < ([ "GOOG" ] : List String).length then 1 else 0),
          "b/" ++ "quote/" ++ String.intercalate "," (([ "GOOG" ] : List String).take 25) ++
            (if strLower "xml" = "json" then ".json" else "") ++ "?" ++
            String.intercalate "&" (quoteArgs (some "week_52") none none))) ∧
    get_quote "b/" ["GOOG"] (some "bogus") none none "xml" =
      .error PyError.assertionError :=
  ⟨(get_quote_detail_flag "b/" ["GOOG"] "week_52" none none "xml").1 (by decide),
    (get_quote_detail_flag "b/" ["GOOG"] "bogus" none none "xml").2 (by decide)⟩

/-- C10: none of the five operations writes any constructor-set field or
the session: each state-passing operation returns the client exactly as it
received it, whatever the transport, parsers and arguments do. -/
theorem client_state_unchanged {σ α ε : Type}
    (transport : σ → String → Except ε String)
    (parseDates : String → Except ε (List PyDate)) (oracle : σ → MarketOracle α ε)
    (c : ETradeMarket σ) (s rf u : String) (symbols : List String)
    (df ct ocat pt : Option String) (red sk sa : Option Bool)
    (ed : Option PyDate) (spn : Option ℚ) (nos : Option Int) :
    (look_up_product_run transport c s rf).1 = c ∧
    (get_quote_run transport c symbols df red sk rf).1 = c ∧
    (get_option_chains_run transport c u ed sa ct spn nos ocat pt).1 = c ∧
    (get_option_expire_date_run transport parseDates c u).1 = c ∧
    (get_all_option_chains_run oracle c u).1 = c :=
  ⟨rfl, rfl, rfl, rfl, rfl⟩

/-- Witness for C10 at a concrete client and concrete (failing) transport
and parsers. -/
theorem client_state_unchanged_witness :
    (look_up_product_run (fun (_ : Nat) (_ : String) => (Except.error 0 : Except Nat String))
      (mkETradeMarket "ck" "cs" "rok" "ros" true (fun _ _ _ _ => (7 : Nat)))
      "aapl" "xml").1 =
      mkETradeMarket "ck" "cs" "rok" "ros" true (fun _ _ _ _ => (7 : Nat)) ∧
    (get_all_option_chains_run
      (fun (_ : Nat) => (MarketOracle.mk (fun _ => Except.error 0)
        (fun _ _ => Except.error 0) : MarketOracle Nat Nat))
      (mkETradeMarket "ck" "cs" "rok" "ros" true (fun _ _ _ _ => (7 : Nat)))
      "aapl").1 =
      mkETradeMarket "ck" "cs" "rok" "ros" true (fun _ _ _ _ => (7 : Nat)) := by
  have h := client_state_unchanged
    (fun (_ : Nat) (_ : String) => (Except.error 0 : Except Nat String))
    (fun _ => (Except.error 0 : Except Nat (List PyDate)))
    (fun (_ : Nat) => (MarketOracle.mk (fun _ => Except.error 0)
      (fun _ _ => Except.error 0) : MarketOracle Nat Nat))
    (mkETradeMarket "ck" "cs" "rok" "ros" true (fun _ _ _ _ => (7 : Nat)))
    "aapl" "xml" "aapl" [] none none none none none none none none none none
  exact ⟨h.1, h.2.2.2.2⟩

end PyEtrade
